import Mathlib

/-!
Verification of the GLSP client layout engine, geometry command subsystem and
marker navigator against their natural-language specification.

Shallow embedding notes:
* JavaScript numbers are embedded as exact rationals (ℚ); the floating-point
  tolerance mentioned by the spec becomes exact equality.
* The embedded code lives in
  - packages/client/src/features/layout/vbox-layout.ts (VBoxLayouterExt),
  - packages/client/src/features/layout/layout-commands.ts
    (ResizeElementsCommand, AlignElementsCommand, Reduce, Select),
  - packages/client/src/features/validation/marker-navigator.ts
    (MarkerNavigator).
* External collaborators (sprotty utilities, layout-utils helpers) that are
  not part of the repository sources are modelled from the spec; each such
  definition carries a doc comment starting with "Modelled from the spec:".
-/

/-- Axis-aligned rectangle, the sprotty Bounds record {x, y, width, height}. -/
structure Bounds where
  x : ℚ
  y : ℚ
  width : ℚ
  height : ℚ
deriving DecidableEq

/-- Sprotty Dimension record {width, height}. -/
structure Dimension where
  width : ℚ
  height : ℚ
deriving DecidableEq

/-- Sprotty Point record {x, y}. -/
structure Point where
  x : ℚ
  y : ℚ
deriving DecidableEq

/-- Modelled from the spec: sprotty's isValidDimension (the "separate validity
predicate" of the data model section) accepts a dimension iff width and height
are nonnegative; NaN has no rational counterpart. -/
def isValidDimension (b : Bounds) : Bool :=
  decide (0 ≤ b.width) && decide (0 ≤ b.height)

/-- Modelled from the spec: sprotty's EMPTY_BOUNDS constant, the all-zero
rectangle returned by getFixedContainerBounds on its fallback path. -/
def EMPTY_BOUNDS : Bounds := ⟨0, 0, 0, 0⟩

/-- Horizontal alignment option of the VBox layouter ('left' | 'center' | 'right'). -/
inductive HAlign where
  | left
  | center
  | right
deriving DecidableEq

/-- VBoxLayoutOptionsExt from vbox-layout.ts: the sprotty VBoxLayoutOptions
fields plus the hGrab/vGrab extension flags. -/
structure VBoxLayoutOptionsExt where
  resizeContainer : Bool
  paddingTop : ℚ
  paddingBottom : ℚ
  paddingLeft : ℚ
  paddingRight : ℚ
  paddingFactor : ℚ
  vGap : ℚ
  hAlign : HAlign
  minWidth : ℚ
  minHeight : ℚ
  hGrab : Bool
  vGrab : Bool
deriving DecidableEq

/-- A child of the layout container. `layoutable` embeds the result of the
external isLayoutableChild capability predicate, `bounds` the (possibly
unresolved) bounds held by the layouter's BoundsData table, and `options` the
already-resolved child layout options (the value getChildLayoutOptions would
return for this child, container defaults merged with node-local overrides). -/
structure Child where
  layoutable : Bool
  bounds : Option Bounds
  options : VBoxLayoutOptionsExt
deriving DecidableEq

/-- The layout container: bounds-awareness and layout-data-awareness flags of
the underlying model element, its current bounds, its optional preferred size
(layoutData.prefSize) and its ordered children. -/
structure Container where
  boundsAware : Bool
  bounds : Bounds
  layoutDataAware : Bool
  prefSize : Option Dimension
  children : List Child
deriving DecidableEq

/-- VBoxLayouterExt.getChildrenSize: folds over the children, summing the
heights of valid layoutable children (inserting vGap between consecutive
contributors) and taking the max of their widths, starting from the sentinels
maxWidth = -1, maxHeight = 0, isFirst = true. -/
def getChildrenSize (children : List Child) (containerOptions : VBoxLayoutOptionsExt) :
    Dimension :=
  let acc := children.foldl
    (fun (acc : ℚ × ℚ × Bool) child =>
      if child.layoutable then
        match child.bounds with
        | some bounds =>
          if isValidDimension bounds then
            (max acc.1 bounds.width,
             acc.2.1 + bounds.height + (if acc.2.2 then 0 else containerOptions.vGap),
             false)
          else acc
        | none => acc
      else acc)
    (-1, 0, true)
  ⟨acc.1, acc.2.1⟩

/-- VBoxLayouterExt.getFixedContainerBounds: the container's bounds with width
and height replaced by the preferred size if one is present, by zero if the
container is layout-data-aware without a preferred size, and EMPTY_BOUNDS
otherwise. -/
def getFixedContainerBounds (container : Container) : Bounds :=
  if container.boundsAware then
    if container.layoutDataAware then
      match container.prefSize with
      | some prefSize =>
        ⟨container.bounds.x, container.bounds.y, prefSize.width, prefSize.height⟩
      | none => ⟨container.bounds.x, container.bounds.y, 0, 0⟩
    else EMPTY_BOUNDS
  else EMPTY_BOUNDS

/-- The maxWidth computation of VBoxLayouterExt.layout (lines 55-58). -/
def maxWidthOf (options : VBoxLayoutOptionsExt) (fixedSize : Bounds)
    (childrenSize : Dimension) : ℚ :=
  options.paddingFactor *
    (if options.resizeContainer then
      max (fixedSize.width - options.paddingLeft - options.paddingRight) childrenSize.width
    else
      max 0 (fixedSize.width - options.paddingLeft - options.paddingRight))

/-- The maxHeight computation of VBoxLayouterExt.layout (lines 59-62). -/
def maxHeightOf (options : VBoxLayoutOptionsExt) (fixedSize : Bounds)
    (childrenSize : Dimension) : ℚ :=
  options.paddingFactor *
    (if options.resizeContainer then
      max (fixedSize.height - options.paddingTop - options.paddingBottom) childrenSize.height
    else
      max 0 (fixedSize.height - options.paddingTop - options.paddingBottom))

/-- The grabbing-children count of VBoxLayouterExt.layout (line 71): the number
of children whose resolved layout options request vGrab, counted over all
children of the container. -/
def grabbingCount (children : List Child) : ℕ :=
  ((children.map Child.options).filter (fun opt => opt.vGrab)).length

/-- The remaining height that can be grabbed, grabHeight = maxHeight -
childrenSize.height (line 67), as a function of the container. -/
def grabHeightOf (container : Container) (options : VBoxLayoutOptionsExt) : ℚ :=
  maxHeightOf options (getFixedContainerBounds container)
      (getChildrenSize container.children options)
    - (getChildrenSize container.children options).height

/-- JavaScript truthiness of the guard on line 156: the vGrab adjustment runs
iff the child requests vGrab and both grabHeight and grabbingChildren are
nonzero (truthy). -/
def grabAdjusted (childOptions : VBoxLayoutOptionsExt) (grabHeight : ℚ)
    (grabbingChildren : ℕ) : Bool :=
  childOptions.vGrab && (grabHeight != 0) && (grabbingChildren != 0)

/-- Modelled from the spec: the inherited sprotty VBoxLayouter.layoutChild
(invoked via super on line 146; its source is not part of this repository).
Per the placement rule of the spec, the child's position is the running
offset, the written bounds keep the child's size, and the returned offset
advances on the stacking axis by the child's height plus the configured gap.
The horizontal-alignment shift sprotty may apply to x is not modelled; the
claims under verification only concern the vertical axis. -/
def superLayoutChild (bounds : Bounds) (containerOptions : VBoxLayoutOptionsExt)
    (currentOffset : Point) : Bounds × Point :=
  (⟨currentOffset.x, currentOffset.y, bounds.width, bounds.height⟩,
   ⟨currentOffset.x, currentOffset.y + bounds.height + containerOptions.vGap⟩)

/-- VBoxLayouterExt.layoutChild (lines 136-168): delegates to the inherited
placement, then applies the hGrab width stretch and the vGrab height
adjustment; the vGrab branch also overrides the returned offset with
currentOffset.y + adjusted height (without gap). Returns the final bounds
written into the child's BoundsData together with the next offset. -/
def layoutChild (bounds : Bounds) (childOptions containerOptions : VBoxLayoutOptionsExt)
    (currentOffset : Point) (maxWidth : ℚ) (grabHeight : ℚ)
    (grabbingChildren : ℕ) : Bounds × Point :=
  let r := superLayoutChild bounds containerOptions currentOffset
  let b1 := if childOptions.hGrab then
      ⟨r.1.x, r.1.y, maxWidth, r.1.height⟩
    else r.1
  if grabAdjusted childOptions grabHeight grabbingChildren then
    let height := b1.height + grabHeight / (grabbingChildren : ℚ)
    (⟨b1.x, b1.y, b1.width, height⟩, ⟨currentOffset.x, currentOffset.y + height⟩)
  else (b1, r.2)

/-- The initial offset of VBoxLayouterExt.layoutChildren (lines 114-117),
centering the content block inside the factor-scaled interior. -/
def initialOffset (containerOptions : VBoxLayoutOptionsExt) (maxWidth maxHeight : ℚ) :
    Point :=
  ⟨containerOptions.paddingLeft +
     (1 / 2) * (maxWidth - maxWidth / containerOptions.paddingFactor),
   containerOptions.paddingTop +
     (1 / 2) * (maxHeight - maxHeight / containerOptions.paddingFactor)⟩

/-- The child walk of VBoxLayouterExt.layoutChildren (lines 119-132): each
layoutable child with valid resolvable bounds is placed via layoutChild and
threads the running offset; other children are skipped. Returns the list of
(child, final bounds) placements alongside the final offset. -/
def layoutChildrenAux (containerOptions : VBoxLayoutOptionsExt) (maxWidth : ℚ)
    (grabHeight : ℚ) (grabbingChildren : ℕ) :
    List Child → Point → List (Child × Bounds) × Point
  | [], currentOffset => ([], currentOffset)
  | child :: rest, currentOffset =>
    if child.layoutable then
      match child.bounds with
      | some bounds =>
        if isValidDimension bounds then
          let r := layoutChild bounds child.options containerOptions currentOffset
            maxWidth grabHeight grabbingChildren
          let tail := layoutChildrenAux containerOptions maxWidth grabHeight
            grabbingChildren rest r.2
          ((child, r.1) :: tail.1, tail.2)
        else layoutChildrenAux containerOptions maxWidth grabHeight grabbingChildren
          rest currentOffset
      | none => layoutChildrenAux containerOptions maxWidth grabHeight grabbingChildren
          rest currentOffset
    else layoutChildrenAux containerOptions maxWidth grabHeight grabbingChildren
      rest currentOffset

/-- VBoxLayouterExt.layoutChildren (lines 109-134). -/
def layoutChildren (children : List Child) (containerOptions : VBoxLayoutOptionsExt)
    (maxWidth maxHeight grabHeight : ℚ) (grabbingChildren : ℕ) :
    List (Child × Bounds) × Point :=
  layoutChildrenAux containerOptions maxWidth grabHeight grabbingChildren children
    (initialOffset containerOptions maxWidth maxHeight)

/-- VBoxLayouterExt.getFinalContainerBounds (lines 198-216): keeps the
container position and grows each axis to the larger of the preferred (or
minimum) size and the children extent plus padding. -/
def getFinalContainerBounds (container : Container) (options : VBoxLayoutOptionsExt)
    (maxWidth maxHeight : ℚ) : Bounds :=
  let size :=
    match (if container.layoutDataAware then container.prefSize else none) with
    | some prefSize => prefSize
    | none => ⟨options.minWidth, options.minHeight⟩
  ⟨container.bounds.x, container.bounds.y,
   max size.width (maxWidth + options.paddingLeft + options.paddingRight),
   max size.height (maxHeight + options.paddingTop + options.paddingBottom)⟩

/-- VBoxLayouterExt.layout (lines 46-78): one layout pass over the container.
Returns the final container bounds and the child placements when the pass
commits (maxWidth > 0 and maxHeight > 0), and none when the empty-content
guard leaves everything untouched. -/
def layout (container : Container) (options : VBoxLayoutOptionsExt) :
    Option (Bounds × List (Child × Bounds)) :=
  let childrenSize := getChildrenSize container.children options
  let fixedSize := getFixedContainerBounds container
  let maxWidth := maxWidthOf options fixedSize childrenSize
  let maxHeight := maxHeightOf options fixedSize childrenSize
  let grabHeight := maxHeight - childrenSize.height
  let grabbingChildren := grabbingCount container.children
  if 0 < maxWidth ∧ 0 < maxHeight then
    let r := layoutChildren container.children options maxWidth maxHeight grabHeight
      grabbingChildren
    some (getFinalContainerBounds container options childrenSize.width
      childrenSize.height, r.1)
  else none

/-- A child qualifies for placement (and for the aggregate size) iff it is
layoutable and its resolved bounds are a valid dimension; this is the filter
condition shared by getChildrenSize and layoutChildren. -/
def qualifies (child : Child) : Bool :=
  child.layoutable &&
    (match child.bounds with
     | some bounds => isValidDimension bounds
     | none => false)

/-- The height a child's bounds had before the pass (0 for unresolved bounds;
only used on qualifying children, whose bounds are present). -/
def origHeight (child : Child) : ℚ :=
  match child.bounds with
  | some bounds => bounds.height
  | none => 0

/-- Total extra vertical extent granted by a pass: the sum over all placements
of final height minus original height. -/
def sumExtras (placements : List (Child × Bounds)) : ℚ :=
  (placements.map (fun p => p.2.height - origHeight p.1)).sum

/-!
Geometry command subsystem: ResizeElementsCommand and AlignElementsCommand
from layout-commands.ts.
-/

/-- A bounds-aware model element as seen by the layout commands, with the
results of the external capability predicates embedded as flags. -/
structure SElem where
  id : String
  bounds : Bounds
  resizable : Bool
  moveable : Bool
deriving DecidableEq

instance : Inhabited SElem := ⟨⟨"", ⟨0, 0, 0, 0⟩, false, false⟩⟩

/-- The wire-level delta {elementId, newPosition, newSize}. -/
structure ElementAndBounds where
  elementId : String
  newPosition : Point
  newSize : Dimension
deriving DecidableEq

/-- The wire-level move {elementId, fromPosition, toPosition}. -/
structure ElementMove where
  elementId : String
  fromPosition : Point
  toPosition : Point
deriving DecidableEq

/-- Capability predicate consulted by ResizeElementsCommand.isActionElement;
the classification itself is external, so its boolean result is a field. -/
def isResizable (element : SElem) : Bool :=
  element.resizable

/-- Capability predicate consulted by AlignElementsCommand.isActionElement. -/
def isBoundsAwareMoveable (element : SElem) : Bool :=
  element.moveable

/-- Reduce.max of layout-commands.ts, i.e. Math.max over the given values.
JavaScript yields -Infinity on an empty list, which ℚ cannot represent; both
commands only apply the reduction to at least two values. -/
def reduceMax : List ℚ → ℚ
  | [] => 0
  | v :: vs => vs.foldl max v

/-- The reference computation shared by the align* methods,
values.reduce((a, b) => Math.min(a, b)): the minimum of a list. JavaScript
throws on an empty list; the command only reaches this with at least two
elements and a nonempty selected subset. -/
def reduce1Min : List ℚ → ℚ
  | [] => 0
  | v :: vs => vs.foldl min v

/-- The reference computation values.reduce((a, b) => Math.max(a, b)) used by
alignRight/alignCenter, under the same nonemptiness caveat. -/
def reduce1Max : List ℚ → ℚ
  | [] => 0
  | v :: vs => vs.foldl max v

/-- Select.all from layout-commands.ts. -/
def Select.all (elements : List SElem) : List SElem :=
  elements

/-- Select.first from layout-commands.ts, the singleton [elements[0]]. -/
def Select.first (elements : List SElem) : List SElem :=
  [elements.headD default]

/-- Select.last from layout-commands.ts, the singleton
[elements[elements.length - 1]]. -/
def Select.last (elements : List SElem) : List SElem :=
  [elements.getLastD default]

/-- LayoutElementsCommand.getActionElements (lines 210-225): the explicit
element-id list, or the current selection when that list is empty, resolved
through the model index and filtered by the command's capability predicate;
unresolvable ids are dropped. -/
def getActionElements (index : String → Option SElem) (isActionElement : SElem → Bool)
    (actionElementIds selectedIds : List String) : List SElem :=
  let elementIDs := if actionElementIds.isEmpty then selectedIds else actionElementIds
  elementIDs.filterMap (fun id =>
    match index id with
    | some element => if isActionElement element then some element else none
    | none => none)

/-- Modelled from the spec: toValidElementAndBounds (utils/layout-utils.ts, a
repository file not among the provided sources) consults the movement
restriction policy once per element; a rejected delta is dropped (undefined)
and an accepted delta passes through unchanged. -/
def toValidElementAndBounds (element : SElem) (bounds : ElementAndBounds)
    (restrictor : SElem → ElementAndBounds → Bool) : Option ElementAndBounds :=
  if restrictor element bounds then some bounds else none

/-- Modelled from the spec: toValidElementMove (utils/layout-utils.ts), same
accept-or-drop contract for moves. -/
def toValidElementMove (element : SElem) (move : ElementMove)
    (restrictor : SElem → ElementMove → Bool) : Option ElementMove :=
  if restrictor element move then some move else none

/-- ResizeElementsCommand.createElementAndBounds (lines 322-339): start from
the element's current position and size, apply the per-dimension change, then
validate against the movement restrictor. -/
def createElementAndBounds (element : SElem)
    (change : SElem → ElementAndBounds → ElementAndBounds)
    (restrictor : SElem → ElementAndBounds → Bool) : Option ElementAndBounds :=
  let bounds : ElementAndBounds :=
    ⟨element.id, ⟨element.bounds.x, element.bounds.y⟩,
     ⟨element.bounds.width, element.bounds.height⟩⟩
  toValidElementAndBounds element (change element bounds) restrictor

/-- ResizeElementsCommand.dispatchResizeActions (lines 307-320): build the
per-element deltas, silently skipping rejected ones; the resulting list is
what SetBoundsAction and ChangeBoundsOperation both carry. -/
def dispatchResizeActions (elements : List SElem)
    (change : SElem → ElementAndBounds → ElementAndBounds)
    (restrictor : SElem → ElementAndBounds → Bool) : List ElementAndBounds :=
  elements.filterMap (fun element => createElementAndBounds element change restrictor)

/-- ResizeElementsCommand.resizeWidth (lines 273-281): reduce the widths to a
target, then resize every element around its center on the x axis. -/
def resizeWidth (reductionFunction : List ℚ → ℚ)
    (restrictor : SElem → ElementAndBounds → Bool)
    (elements : List SElem) : List ElementAndBounds :=
  let targetWidth := reductionFunction (elements.map (fun element => element.bounds.width))
  dispatchResizeActions elements
    (fun element bounds =>
      let halfDiffWidth := (1 / 2) * (targetWidth - element.bounds.width)
      ⟨bounds.elementId,
       ⟨element.bounds.x - halfDiffWidth, bounds.newPosition.y⟩,
       ⟨targetWidth, bounds.newSize.height⟩⟩)
    restrictor

/-- ResizeElementsCommand.resizeHeight (lines 283-291). -/
def resizeHeight (reductionFunction : List ℚ → ℚ)
    (restrictor : SElem → ElementAndBounds → Bool)
    (elements : List SElem) : List ElementAndBounds :=
  let targetHeight := reductionFunction (elements.map (fun element => element.bounds.height))
  dispatchResizeActions elements
    (fun element bounds =>
      let halfDiffHeight := (1 / 2) * (targetHeight - element.bounds.height)
      ⟨bounds.elementId,
       ⟨bounds.newPosition.x, element.bounds.y - halfDiffHeight⟩,
       ⟨bounds.newSize.width, targetHeight⟩⟩)
    restrictor

/-- ResizeElementsCommand.resizeWidthAndHeight (lines 293-305). -/
def resizeWidthAndHeight (reductionFunction : List ℚ → ℚ)
    (restrictor : SElem → ElementAndBounds → Bool)
    (elements : List SElem) : List ElementAndBounds :=
  let targetWidth := reductionFunction (elements.map (fun element => element.bounds.width))
  let targetHeight := reductionFunction (elements.map (fun element => element.bounds.height))
  dispatchResizeActions elements
    (fun element _bounds =>
      let halfDiffWidth := (1 / 2) * (targetWidth - element.bounds.width)
      let halfDiffHeight := (1 / 2) * (targetHeight - element.bounds.height)
      ⟨element.id,
       ⟨element.bounds.x - halfDiffWidth, element.bounds.y - halfDiffHeight⟩,
       ⟨targetWidth, targetHeight⟩⟩)
    restrictor

/-- ResizeDimension from layout-commands.ts. -/
inductive ResizeDimension where
  | Width
  | Height
  | Width_And_Height
deriving DecidableEq

/-- The data of a ResizeElementsAction. -/
structure ResizeAction where
  elementIds : List String
  dimension : ResizeDimension
  reductionFunction : List ℚ → ℚ

/-- ResizeElementsCommand.execute (lines 255-271): resolve the target
elements, and only when more than one qualifies, dispatch the per-dimension
resize; the model root is returned unchanged either way. The Option captures
whether a dispatch happened (none = nothing dispatched). -/
def ResizeElementsCommand.execute {α : Type} (action : ResizeAction)
    (index : String → Option SElem) (selectedIds : List String)
    (restrictor : SElem → ElementAndBounds → Bool) (root : α) :
    α × Option (List ElementAndBounds) :=
  let elements := getActionElements index isResizable action.elementIds selectedIds
  if 1 < elements.length then
    (root,
     some (match action.dimension with
       | .Width => resizeWidth action.reductionFunction restrictor elements
       | .Height => resizeHeight action.reductionFunction restrictor elements
       | .Width_And_Height =>
         resizeWidthAndHeight action.reductionFunction restrictor elements))
  else (root, none)

/-- AlignElementsCommand.createElementMove (lines 456-473): a move starting
and ending at the element's current position, adjusted by the per-alignment
change, then validated against the movement restrictor. -/
def createElementMove (element : SElem)
    (change : SElem → ElementMove → ElementMove)
    (restrictor : SElem → ElementMove → Bool) : Option ElementMove :=
  let move : ElementMove :=
    ⟨element.id, ⟨element.bounds.x, element.bounds.y⟩,
     ⟨element.bounds.x, element.bounds.y⟩⟩
  toValidElementMove element (change element move) restrictor

/-- AlignElementsCommand.createElementAndBounds (lines 475-487): the
server-side delta mirroring a client-side move. -/
def alignElementAndBounds (element : SElem) (move : ElementMove) : ElementAndBounds :=
  ⟨element.id, ⟨move.toPosition.x, move.toPosition.y⟩,
   ⟨element.bounds.width, element.bounds.height⟩⟩

/-- AlignElementsCommand.dispatchAlignActions (lines 438-454): one pass over
the elements collecting the accepted moves and, for each accepted move, the
mirrored ElementAndBounds, skipping rejected elements. -/
def dispatchAlignActions (elements : List SElem)
    (change : SElem → ElementMove → ElementMove)
    (restrictor : SElem → ElementMove → Bool) :
    List ElementMove × List ElementAndBounds :=
  let pairs := elements.filterMap (fun element =>
    (createElementMove element change restrictor).map (fun move => (element, move)))
  (pairs.map (fun p => p.2), pairs.map (fun p => alignElementAndBounds p.1 p.2))

/-- AlignElementsCommand.alignLeft (lines 396-400): every move's target x is
the minimum x over the subset chosen by the selection function. -/
def alignLeft (selectionFunction : List SElem → List SElem)
    (restrictor : SElem → ElementMove → Bool)
    (elements : List SElem) : List ElementMove × List ElementAndBounds :=
  let calculationElements := selectionFunction elements
  let minX := reduce1Min (calculationElements.map (fun element => element.bounds.x))
  dispatchAlignActions elements
    (fun _element move => ⟨move.elementId, move.fromPosition, ⟨minX, move.toPosition.y⟩⟩)
    restrictor

/-!
Marker navigator from marker-navigator.ts. The marker sequence handed to
next/previous is the output of getMarkers (collectIssueMarkers + filter +
sort); collecting and sorting live outside the navigation algorithm, so the
definitions below take the filtered, sorted sequence and the injected
comparator as inputs. The comparator returns a number; its sign is all the
algorithm consumes, so ℤ stands in for it.
-/

/-- First index of the list satisfying the predicate (the for-loop scan shared
by getNextIndex and, on the reversed list, getPreviousIndex). -/
def findFirstIdx {M : Type} (p : M → Bool) : List M → Option ℕ
  | [] => none
  | m :: rest => if p m then some 0 else (findFirstIdx p rest).map (· + 1)

/-- MarkerNavigator.getNextIndex (lines 137-144): the first index whose marker
compares greater than current, or 0 when there is none. -/
def getNextIndex {M : Type} (cmp : M → M → ℤ) (current : M) (markers : List M) : ℕ :=
  match findFirstIdx (fun m => 0 < cmp m current) markers with
  | some index => index
  | none => 0

/-- MarkerNavigator.getPreviousIndex (lines 146-153): scanning from the top,
the last index whose marker compares less than current, or markers.length - 1
when there is none (equal to -1 exactly when the sequence is empty). -/
def getPreviousIndex {M : Type} (cmp : M → M → ℤ) (current : M) (markers : List M) : ℤ :=
  match findFirstIdx (fun m => cmp m current < 0) markers.reverse with
  | some j => (markers.length : ℤ) - 1 - j
  | none => (markers.length : ℤ) - 1

/-- MarkerNavigator.next (lines 108-118): without a current element the first
sorted marker (or undefined when there are none); otherwise the marker at
getNextIndex modulo the sequence length. An out-of-range JavaScript index
yields undefined, matching get? returning none. -/
def MarkerNavigator.next {M : Type} (cmp : M → M → ℤ) (markers : List M)
    (current : Option M) : Option M :=
  match current with
  | none => if 0 < markers.length then markers.get? 0 else none
  | some c => markers.get? (getNextIndex cmp c markers % markers.length)

/-- MarkerNavigator.previous (lines 120-130): without a current element the
first sorted marker as well; otherwise the marker at getPreviousIndex modulo
the sequence length. The index is negative only for the empty sequence, where
JavaScript indexes with NaN and obtains undefined. -/
def MarkerNavigator.previous {M : Type} (cmp : M → M → ℤ) (markers : List M)
    (current : Option M) : Option M :=
  match current with
  | none => if 0 < markers.length then markers.get? 0 else none
  | some c =>
    let index := getPreviousIndex cmp c markers
    if index < 0 then none
    else markers.get? (index.toNat % markers.length)

/-!
Concrete fixtures used by witnesses and counterexamples.
-/

/-- Container options with no padding, factor 1 and gap 1; the vGrab/hGrab
flags are off and child fixtures override them as needed. -/
def baseOptions : VBoxLayoutOptionsExt :=
  ⟨false, 0, 0, 0, 0, 1, 1, HAlign.center, 0, 0, false, false⟩

/-- Options with fixed (non-resizing) container and horizontal padding 5. -/
def paddedOptions : VBoxLayoutOptionsExt :=
  ⟨false, 0, 0, 5, 5, 1, 1, HAlign.center, 0, 0, false, false⟩

/-- A fixed-size 10 x 10 container whose two children both request vGrab, but
only the first is a layoutable child with valid bounds. -/
def grabCexContainer : Container :=
  ⟨true, ⟨0, 0, 0, 0⟩, true, some ⟨10, 10⟩,
   [⟨true, some ⟨0, 0, 1, 1⟩, { baseOptions with vGrab := true }⟩,
    ⟨false, none, { baseOptions with vGrab := true }⟩]⟩

/-- A fixed-size 10 x 10 container whose two valid children are a vGrab child
followed by a plain child, exposing the gap dropped after the grab. -/
def gapCexContainer : Container :=
  ⟨true, ⟨0, 0, 0, 0⟩, true, some ⟨10, 10⟩,
   [⟨true, some ⟨0, 0, 1, 1⟩, { baseOptions with vGrab := true }⟩,
    ⟨true, some ⟨0, 0, 1, 1⟩, baseOptions⟩]⟩

/-- A fixed-size 10 x 10 container in which every vGrab child is layoutable
with valid bounds (here: both children). -/
def grabAllContainer : Container :=
  ⟨true, ⟨0, 0, 0, 0⟩, true, some ⟨10, 10⟩,
   [⟨true, some ⟨0, 0, 1, 1⟩, { baseOptions with vGrab := true }⟩,
    ⟨true, some ⟨0, 0, 2, 2⟩, { baseOptions with vGrab := true }⟩]⟩

/-- A resizable, moveable element at the origin with size 4 x 2. -/
def elemA : SElem := ⟨"a", ⟨0, 0, 4, 2⟩, true, true⟩

/-- A resizable, moveable element at (10, 5) with size 2 x 3. -/
def elemB : SElem := ⟨"b", ⟨10, 5, 2, 3⟩, true, true⟩

/-- A movement restrictor that accepts every resize delta. -/
def acceptAllEAB : SElem → ElementAndBounds → Bool := fun _ _ => true

/-- A movement restrictor that accepts every move. -/
def acceptAllMove : SElem → ElementMove → Bool := fun _ _ => true

/-!
Theorems. Each claim of the specification is settled below; helper lemmas are
shared and never named after a claim.
-/

theorem findFirstIdx_eq_none_iff {M : Type} (p : M → Bool) (l : List M) :
    findFirstIdx p l = none ↔ ∀ m ∈ l, p m = false := by
  induction l with
  | nil => simp [findFirstIdx]
  | cons m rest ih =>
    by_cases hm : p m
    · simp [findFirstIdx, hm]
    · simp [findFirstIdx, hm, ih]

theorem findFirstIdx_lt_length {M : Type} (p : M → Bool) (l : List M) (i : ℕ)
    (h : findFirstIdx p l = some i) : i < l.length := by
  induction l generalizing i with
  | nil => simp [findFirstIdx] at h
  | cons m rest ih =>
    by_cases hm : p m
    · simp [findFirstIdx, hm] at h
      simp only [List.length_cons]
      omega
    · simp [findFirstIdx, hm] at h
      obtain ⟨j, hj, rfl⟩ := h
      have := ih j hj
      simp only [List.length_cons]
      omega

/-- C6: with no current element, MarkerNavigator.next and
MarkerNavigator.previous both return the first element of the filtered,
sorted marker sequence, or none when the sequence is empty; previous does not
fall back to the last element. -/
theorem markerNavigator_no_current_returns_first {M : Type} (cmp : M → M → ℤ)
    (markers : List M) :
    MarkerNavigator.next cmp markers none = markers.head? ∧
    MarkerNavigator.previous cmp markers none = markers.head? := by
  constructor <;>
    cases markers <;>
      simp [MarkerNavigator.next, MarkerNavigator.previous]

/-- C7: on a nonempty filtered, sorted marker sequence with a defined current
element, next wraps to markers[0] when the current element compares greater
than or equal to every marker, previous symmetrically wraps to
markers[N - 1] when it compares less than or equal to every marker, and both
directions always return a marker, never undefined. -/
theorem markerNavigator_wraparound {M : Type} (cmp : M → M → ℤ) (markers : List M)
    (c : M) (h1 : markers ≠ []) :
    ((∀ m ∈ markers, cmp m c ≤ 0) →
      MarkerNavigator.next cmp markers (some c) = markers.get? 0) ∧
    ((∀ m ∈ markers, 0 ≤ cmp m c) →
      MarkerNavigator.previous cmp markers (some c) = markers.get? (markers.length - 1)) ∧
    (MarkerNavigator.next cmp markers (some c)).isSome = true ∧
    (MarkerNavigator.previous cmp markers (some c)).isSome = true := by
  have hlen : 0 < markers.length := List.length_pos.mpr h1
  refine ⟨?_, ?_, ?_, ?_⟩
  · intro hle
    have hnone : findFirstIdx (fun m => decide (0 < cmp m c)) markers = none := by
      rw [findFirstIdx_eq_none_iff]
      intro m hm
      simpa using not_lt.mpr (hle m hm)
    simp [MarkerNavigator.next, getNextIndex, hnone]
  · intro hge
    have hnone : findFirstIdx (fun m => decide (cmp m c < 0)) markers.reverse = none := by
      rw [findFirstIdx_eq_none_iff]
      intro m hm
      simpa using not_lt.mpr (hge m (List.mem_reverse.mp hm))
    have hidx : getPreviousIndex cmp c markers = (markers.length : ℤ) - 1 := by
      simp [getPreviousIndex, hnone]
    have hnonneg : ¬ getPreviousIndex cmp c markers < 0 := by rw [hidx]; omega
    have hton : (getPreviousIndex cmp c markers).toNat = markers.length - 1 := by
      rw [hidx]; omega
    simp only [MarkerNavigator.previous, hnonneg, if_false, hton]
    rw [Nat.mod_eq_of_lt (by omega)]
  · have hmod : getNextIndex cmp c markers % markers.length < markers.length :=
      Nat.mod_lt _ hlen
    simp [MarkerNavigator.next, List.getElem?_eq_getElem hmod]
  · have hbound : 0 ≤ getPreviousIndex cmp c markers ∧
        (getPreviousIndex cmp c markers).toNat < markers.length := by
      cases hf : findFirstIdx (fun m => decide (cmp m c < 0)) markers.reverse with
      | none =>
        simp only [getPreviousIndex, hf]
        constructor <;> omega
      | some j =>
        have hj : j < markers.length := by
          have := findFirstIdx_lt_length _ _ _ hf
          simpa using this
        simp only [getPreviousIndex, hf]
        constructor <;> omega
    have hnotlt : ¬ getPreviousIndex cmp c markers < 0 := by omega
    have hmod : (getPreviousIndex cmp c markers).toNat % markers.length <
        markers.length := Nat.mod_lt _ hlen
    simp [MarkerNavigator.previous, hnotlt, List.getElem?_eq_getElem hmod]

/-- Concrete instantiation of the wraparound theorem: over markers [1, 2, 3]
compared by subtraction, next from current 5 wraps to the first marker and
previous from current 0 wraps to the last. -/
theorem markerNavigator_wraparound_witness :
    MarkerNavigator.next (fun a b : ℤ => a - b) [1, 2, 3] (some 5) = some 1 ∧
    MarkerNavigator.previous (fun a b : ℤ => a - b) [1, 2, 3] (some 0) = some 3 := by
  constructor
  · have h := (markerNavigator_wraparound (fun a b : ℤ => a - b) [1, 2, 3] 5
      (by decide)).1 (by decide)
    simpa using h
  · have h := (markerNavigator_wraparound (fun a b : ℤ => a - b) [1, 2, 3] 0
      (by decide)).2.1 (by decide)
    simpa using h

/-- C3 (amended): with resizeContainer = false and paddingFactor > 0, the
usable interior on each axis equals (hence never exceeds) paddingFactor *
max(0, S - padding) for the fixed container size S, and is independent of the
children aggregate entirely. The unclamped bound paddingFactor * (S - padding)
of the original claim fails when the padding exceeds S, see the
counterexample. -/
theorem vbox_fixed_container_usable_bound (options : VBoxLayoutOptionsExt)
    (fixedSize : Bounds) (childrenSize childrenSize' : Dimension)
    (hrc : options.resizeContainer = false) (hpf : 0 < options.paddingFactor) :
    maxWidthOf options fixedSize childrenSize ≤
      options.paddingFactor *
        max 0 (fixedSize.width - options.paddingLeft - options.paddingRight) ∧
    maxHeightOf options fixedSize childrenSize ≤
      options.paddingFactor *
        max 0 (fixedSize.height - options.paddingTop - options.paddingBottom) ∧
    maxWidthOf options fixedSize childrenSize =
      maxWidthOf options fixedSize childrenSize' ∧
    maxHeightOf options fixedSize childrenSize =
      maxHeightOf options fixedSize childrenSize' := by
  unfold maxWidthOf maxHeightOf
  rw [hrc]
  simp

/-- Concrete instantiation of the fixed-container bound: horizontal padding 5
on a zero-sized fixed container, usable width bounded by the clamped bound. -/
theorem vbox_fixed_container_usable_bound_witness :
    paddedOptions.resizeContainer = false ∧ (0 : ℚ) < paddedOptions.paddingFactor ∧
    maxWidthOf paddedOptions EMPTY_BOUNDS ⟨5, 5⟩ ≤
      paddedOptions.paddingFactor *
        max 0 (EMPTY_BOUNDS.width - paddedOptions.paddingLeft - paddedOptions.paddingRight) :=
  ⟨rfl, by norm_num [paddedOptions],
   (vbox_fixed_container_usable_bound paddedOptions EMPTY_BOUNDS ⟨5, 5⟩ ⟨7, 7⟩ rfl
     (by norm_num [paddedOptions])).1⟩

/-- C3 counterexample: with resizeContainer = false, paddingFactor = 1 and a
fixed size S = 0 smaller than the horizontal padding 10, the computed usable
width is 0, while paddingFactor * (S - padding) = -10; the original unclamped
bound is exceeded. -/
theorem vbox_fixed_container_usable_cex :
    paddedOptions.resizeContainer = false ∧
    (0 : ℚ) < paddedOptions.paddingFactor ∧
    maxWidthOf paddedOptions EMPTY_BOUNDS ⟨5, 5⟩ = 0 ∧
    paddedOptions.paddingFactor *
      (EMPTY_BOUNDS.width - paddedOptions.paddingLeft - paddedOptions.paddingRight) = -10 ∧
    ¬ ((0 : ℚ) ≤ -10) := by
  refine ⟨rfl, by norm_num [paddedOptions],
    by norm_num [maxWidthOf, paddedOptions, EMPTY_BOUNDS],
    by norm_num [paddedOptions, EMPTY_BOUNDS], by norm_num⟩

/-- C8: when fewer than two elements qualify after id resolution and the
resizable-capability filter, ResizeElementsCommand.execute dispatches nothing
and returns the model root unchanged. -/
theorem resizeCommand_noop_when_few {α : Type} (action : ResizeAction)
    (index : String → Option SElem) (selectedIds : List String)
    (restrictor : SElem → ElementAndBounds → Bool) (root : α)
    (h : (getActionElements index isResizable action.elementIds selectedIds).length < 2) :
    ResizeElementsCommand.execute action index selectedIds restrictor root = (root, none) := by
  unfold ResizeElementsCommand.execute
  have hnot : ¬ 1 < (getActionElements index isResizable action.elementIds
      selectedIds).length := by omega
  simp [hnot]

/-- Concrete instantiation of the no-op behaviour: a single unresolvable id
leaves zero qualifying elements, so execute returns the root with no
dispatch. -/
theorem resizeCommand_noop_when_few_witness :
    ResizeElementsCommand.execute ⟨["a"], ResizeDimension.Width, reduceMax⟩
      (fun _ => none) [] acceptAllEAB (0 : ℕ) = ((0 : ℕ), none) :=
  resizeCommand_noop_when_few ⟨["a"], ResizeDimension.Width, reduceMax⟩
    (fun _ => none) [] acceptAllEAB (0 : ℕ) (by norm_num [getActionElements])

/-- C9: every ElementAndBounds emitted by resizeWidth keeps the vertical
geometry of its element: the new y position and the new height equal the
element's current bounds, whatever the reduction function and the movement
restrictor decide. -/
theorem resizeWidth_preserves_vertical (reductionFunction : List ℚ → ℚ)
    (restrictor : SElem → ElementAndBounds → Bool) (elements : List SElem) :
    ∀ eab ∈ resizeWidth reductionFunction restrictor elements,
      ∃ e ∈ elements, eab.elementId = e.id ∧ eab.newPosition.y = e.bounds.y ∧
        eab.newSize.height = e.bounds.height := by
  intro eab hmem
  unfold resizeWidth dispatchResizeActions at hmem
  rw [List.mem_filterMap] at hmem
  obtain ⟨e, he, heq⟩ := hmem
  simp only [createElementAndBounds, toValidElementAndBounds] at heq
  refine ⟨e, he, ?_⟩
  split at heq
  · cases heq
    exact ⟨rfl, rfl, rfl⟩
  · cases heq

/-- Concrete instantiation of the vertical-frame property at the first
emitted delta of a two-element width resize. -/
theorem resizeWidth_preserves_vertical_witness :
    ∃ e ∈ [elemA, elemB],
      (⟨"a", ⟨0, 0⟩, ⟨4, 2⟩⟩ : ElementAndBounds).elementId = e.id ∧
      (⟨"a", ⟨0, 0⟩, ⟨4, 2⟩⟩ : ElementAndBounds).newPosition.y = e.bounds.y ∧
      (⟨"a", ⟨0, 0⟩, ⟨4, 2⟩⟩ : ElementAndBounds).newSize.height = e.bounds.height :=
  resizeWidth_preserves_vertical reduceMax acceptAllEAB [elemA, elemB]
    ⟨"a", ⟨0, 0⟩, ⟨4, 2⟩⟩ (by
      norm_num [resizeWidth, dispatchResizeActions, createElementAndBounds,
        toValidElementAndBounds, acceptAllEAB, reduceMax, elemA, elemB])

theorem getChildrenSize_of_no_qualifying (children : List Child)
    (options : VBoxLayoutOptionsExt) (h : ∀ c ∈ children, qualifies c = false) :
    getChildrenSize children options = ⟨-1, 0⟩ := by
  unfold getChildrenSize
  suffices hfold : ∀ acc : ℚ × ℚ × Bool,
      children.foldl (fun acc child =>
        if child.layoutable then
          match child.bounds with
          | some bounds =>
            if isValidDimension bounds then
              (max acc.1 bounds.width,
               acc.2.1 + bounds.height + (if acc.2.2 then 0 else options.vGap),
               false)
            else acc
          | none => acc
        else acc) acc = acc by
    rw [hfold]
  induction children with
  | nil => intro acc; rfl
  | cons c rest ih =>
    intro acc
    have hc : qualifies c = false := h c (List.mem_cons_self c rest)
    have hrest : ∀ c' ∈ rest, qualifies c' = false :=
      fun c' hc' => h c' (List.mem_cons_of_mem c hc')
    have hstep : (if c.layoutable then
        match c.bounds with
        | some bounds =>
          if isValidDimension bounds then
            (max acc.1 bounds.width,
             acc.2.1 + bounds.height + (if acc.2.2 then 0 else options.vGap),
             false)
          else acc
        | none => acc
      else acc) = acc := by
      unfold qualifies at hc
      rcases hl : c.layoutable with _ | _
      · simp [hl]
      · rcases hb : c.bounds with _ | b
        · simp [hl, hb]
        · rw [hl, hb] at hc
          simp at hc
          simp [hl, hb, hc]
    rw [List.foldl_cons, hstep]
    exact ih hrest acc

/-- C10: when no layoutable child has valid resolvable bounds, getChildrenSize
returns the sentinel width -1 (not 0) and height 0, and with resizeContainer
the usable-width computation becomes paddingFactor * max(fixedSize - padding,
-1). -/
theorem vbox_children_size_sentinel (children : List Child)
    (options : VBoxLayoutOptionsExt) (fixedSize : Bounds)
    (h : ∀ c ∈ children, qualifies c = false) :
    getChildrenSize children options = ⟨-1, 0⟩ ∧
    (options.resizeContainer = true →
      maxWidthOf options fixedSize (getChildrenSize children options) =
        options.paddingFactor *
          max (fixedSize.width - options.paddingLeft - options.paddingRight) (-1)) := by
  have hcs := getChildrenSize_of_no_qualifying children options h
  refine ⟨hcs, fun hrc => ?_⟩
  rw [hcs]
  unfold maxWidthOf
  rw [hrc]
  simp

/-- Concrete instantiation of the sentinel property: a container holding one
non-layoutable child and one child with invalid (negative-width) bounds. -/
theorem vbox_children_size_sentinel_witness :
    getChildrenSize [⟨false, none, baseOptions⟩, ⟨true, some ⟨0, 0, -1, 2⟩, baseOptions⟩]
      baseOptions = ⟨-1, 0⟩ :=
  (vbox_children_size_sentinel
    [⟨false, none, baseOptions⟩, ⟨true, some ⟨0, 0, -1, 2⟩, baseOptions⟩]
    baseOptions EMPTY_BOUNDS (by
      intro c hc
      simp only [List.mem_cons, List.not_mem_nil, or_false] at hc
      rcases hc with rfl | rfl
      · rfl
      · norm_num [qualifies, isValidDimension])).1

theorem le_foldl_max_init (vs : List ℚ) (a : ℚ) : a ≤ vs.foldl max a := by
  induction vs generalizing a with
  | nil => exact le_refl a
  | cons w ws ih => exact le_trans (le_max_left a w) (ih (max a w))

theorem le_foldl_max_mem (vs : List ℚ) (a v : ℚ) (h : v ∈ vs) : v ≤ vs.foldl max a := by
  induction vs generalizing a with
  | nil => cases h
  | cons w ws ih =>
    rcases List.mem_cons.mp h with rfl | hv
    · exact le_trans (le_max_right a v) (le_foldl_max_init ws (max a v))
    · exact ih (max a w) hv

theorem foldl_max_mem (vs : List ℚ) (a : ℚ) :
    vs.foldl max a = a ∨ vs.foldl max a ∈ vs := by
  induction vs generalizing a with
  | nil => exact Or.inl rfl
  | cons w ws ih =>
    rw [List.foldl_cons]
    rcases ih (max a w) with h | h
    · rcases max_choice a w with hm | hm
      · exact Or.inl (h.trans hm)
      · exact Or.inr (List.mem_cons.mpr (Or.inl (h.trans hm)))
    · exact Or.inr (List.mem_cons_of_mem w h)

theorem reduceMax_is_max (vs : List ℚ) (h : vs ≠ []) :
    (∀ v ∈ vs, v ≤ reduceMax vs) ∧ reduceMax vs ∈ vs := by
  cases vs with
  | nil => cases h rfl
  | cons v ws =>
    constructor
    · intro w hw
      rcases List.mem_cons.mp hw with rfl | hw
      · exact le_foldl_max_init ws w
      · exact le_foldl_max_mem ws v w hw
    · rcases foldl_max_mem ws v with hm | hm
      · exact List.mem_cons.mpr (Or.inl hm)
      · exact List.mem_cons_of_mem v hm

theorem foldl_min_le_init (vs : List ℚ) (a : ℚ) : vs.foldl min a ≤ a := by
  induction vs generalizing a with
  | nil => exact le_refl a
  | cons w ws ih => exact le_trans (ih (min a w)) (min_le_left a w)

theorem foldl_min_le_mem (vs : List ℚ) (a v : ℚ) (h : v ∈ vs) : vs.foldl min a ≤ v := by
  induction vs generalizing a with
  | nil => cases h
  | cons w ws ih =>
    rcases List.mem_cons.mp h with rfl | hv
    · exact le_trans (foldl_min_le_init ws (min a v)) (min_le_right a v)
    · exact ih (min a w) hv

theorem foldl_min_mem (vs : List ℚ) (a : ℚ) :
    vs.foldl min a = a ∨ vs.foldl min a ∈ vs := by
  induction vs generalizing a with
  | nil => exact Or.inl rfl
  | cons w ws ih =>
    rw [List.foldl_cons]
    rcases ih (min a w) with h | h
    · rcases min_choice a w with hm | hm
      · exact Or.inl (h.trans hm)
      · exact Or.inr (List.mem_cons.mpr (Or.inl (h.trans hm)))
    · exact Or.inr (List.mem_cons_of_mem w h)

theorem reduce1Min_is_min (vs : List ℚ) (h : vs ≠ []) :
    (∀ v ∈ vs, reduce1Min vs ≤ v) ∧ reduce1Min vs ∈ vs := by
  cases vs with
  | nil => cases h rfl
  | cons v ws =>
    constructor
    · intro w hw
      rcases List.mem_cons.mp hw with rfl | hw
      · exact foldl_min_le_init ws w
      · exact foldl_min_le_mem ws v w hw
    · rcases foldl_min_mem ws v with hm | hm
      · exact List.mem_cons.mpr (Or.inl hm)
      · exact List.mem_cons_of_mem v hm

theorem filterMap_eq_map_of_some {A B : Type} (l : List A) (F : A → Option B)
    (G : A → B) (h : ∀ a, F a = some (G a)) : l.filterMap F = l.map G := by
  induction l with
  | nil => rfl
  | cons a rest ih =>
    rw [List.filterMap_cons, h a, ih]
    rfl

/-- C4: width resize with the max reduction over at least two qualifying
elements, with a movement restrictor that rejects nothing: each emitted
delta's new width is the maximum pre-resize width of the batch, and each
element's center x + width/2 is preserved. -/
theorem resizeWidth_max_resizes_to_max (elements : List SElem)
    (restrictor : SElem → ElementAndBounds → Bool)
    (h2 : 2 ≤ elements.length)
    (hacc : ∀ e b, restrictor e b = true) :
    List.Forall₂ (fun e eab =>
        (∀ e' ∈ elements, e'.bounds.width ≤ eab.newSize.width) ∧
        (∃ e' ∈ elements, eab.newSize.width = e'.bounds.width) ∧
        eab.newPosition.x + eab.newSize.width / 2 = e.bounds.x + e.bounds.width / 2)
      elements (resizeWidth reduceMax restrictor elements) := by
  have hne : elements ≠ [] := by
    intro hnil
    rw [hnil] at h2
    simp at h2
  have hwne : elements.map (fun el => el.bounds.width) ≠ [] := by
    simpa using hne
  have hmax := reduceMax_is_max (elements.map (fun el => el.bounds.width)) hwne
  have hmap : resizeWidth reduceMax restrictor elements = elements.map (fun e =>
      ⟨e.id,
       ⟨e.bounds.x - (1 / 2) *
          (reduceMax (elements.map (fun el => el.bounds.width)) - e.bounds.width),
        e.bounds.y⟩,
       ⟨reduceMax (elements.map (fun el => el.bounds.width)), e.bounds.height⟩⟩) := by
    simp only [resizeWidth, dispatchResizeActions]
    refine filterMap_eq_map_of_some elements _ _ (fun e => ?_)
    simp only [createElementAndBounds, toValidElementAndBounds]
    rw [hacc]
    simp
  rw [hmap, List.forall₂_map_right_iff, List.forall₂_same]
  intro e he
  refine ⟨?_, ?_, ?_⟩
  · intro e' he'
    exact hmax.1 _ (List.mem_map_of_mem (fun el => el.bounds.width) he')
  · obtain ⟨e', he', heq⟩ := List.mem_map.mp hmax.2
    exact ⟨e', he', heq.symm⟩
  · ring

/-- Concrete instantiation of the width-resize property over two elements of
widths 4 and 2. -/
theorem resizeWidth_max_resizes_to_max_witness :
    List.Forall₂ (fun e eab =>
        (∀ e' ∈ [elemA, elemB], e'.bounds.width ≤ eab.newSize.width) ∧
        (∃ e' ∈ [elemA, elemB], eab.newSize.width = e'.bounds.width) ∧
        eab.newPosition.x + eab.newSize.width / 2 = e.bounds.x + e.bounds.width / 2)
      [elemA, elemB] (resizeWidth reduceMax acceptAllEAB [elemA, elemB]) :=
  resizeWidth_max_resizes_to_max [elemA, elemB] acceptAllEAB (by simp)
    (fun _ _ => rfl)

/-- C5: left alignment over at least two qualifying elements, for any of the
selection functions all/first/last and a movement restrictor that rejects
nothing: every emitted move sets the target x to the minimum x over the
selected subset, so all moved elements end up with equal left edges. -/
theorem alignLeft_aligns_left_edges (elements : List SElem)
    (selectionFunction : List SElem → List SElem)
    (restrictor : SElem → ElementMove → Bool)
    (h2 : 2 ≤ elements.length)
    (hsel : selectionFunction = Select.all ∨ selectionFunction = Select.first ∨
      selectionFunction = Select.last)
    (hacc : ∀ e m, restrictor e m = true) :
    ∀ move ∈ (alignLeft selectionFunction restrictor elements).1,
      (∀ e ∈ selectionFunction elements, move.toPosition.x ≤ e.bounds.x) ∧
      (∃ e ∈ selectionFunction elements, move.toPosition.x = e.bounds.x) ∧
      (∀ move' ∈ (alignLeft selectionFunction restrictor elements).1,
        move'.toPosition.x = move.toPosition.x) := by
  have hselne : selectionFunction elements ≠ [] := by
    rcases hsel with rfl | rfl | rfl
    · intro hnil
      rw [show Select.all elements = elements from rfl] at hnil
      rw [hnil] at h2
      simp at h2
    · simp [Select.first]
    · simp [Select.last]
  have hxne : (selectionFunction elements).map (fun e => e.bounds.x) ≠ [] := by
    simpa using hselne
  have hmin := reduce1Min_is_min _ hxne
  have hmoves : (alignLeft selectionFunction restrictor elements).1 =
      elements.map (fun e =>
        ⟨e.id, ⟨e.bounds.x, e.bounds.y⟩,
         ⟨reduce1Min ((selectionFunction elements).map (fun el => el.bounds.x)),
          e.bounds.y⟩⟩) := by
    simp only [alignLeft, dispatchAlignActions]
    have hpairs := filterMap_eq_map_of_some elements
      (fun e => (createElementMove e
        (fun _element move =>
          ⟨move.elementId, move.fromPosition,
           ⟨reduce1Min ((selectionFunction elements).map (fun el => el.bounds.x)),
            move.toPosition.y⟩⟩) restrictor).map (fun move => (e, move)))
      (fun e => (e, (⟨e.id, ⟨e.bounds.x, e.bounds.y⟩,
        ⟨reduce1Min ((selectionFunction elements).map (fun el => el.bounds.x)),
         e.bounds.y⟩⟩ : ElementMove)))
      (fun e => by
        simp only [createElementMove, toValidElementMove]
        rw [hacc]
        simp)
    rw [hpairs]
    simp
  rw [hmoves]
  intro move hmove
  obtain ⟨e, he, rfl⟩ := List.mem_map.mp hmove
  refine ⟨?_, ?_, ?_⟩
  · intro e' he'
    exact hmin.1 _ (List.mem_map_of_mem (fun el => el.bounds.x) he')
  · obtain ⟨e', he', heq⟩ := List.mem_map.mp hmin.2
    exact ⟨e', he', heq.symm⟩
  · intro move' hmove'
    obtain ⟨e', he', rfl⟩ := List.mem_map.mp hmove'
    rfl

/-- Concrete instantiation of the left-alignment property over two elements
with the all-selection, at the first emitted move. -/
theorem alignLeft_aligns_left_edges_witness :
    (∀ e ∈ Select.all [elemA, elemB],
      (⟨"a", ⟨0, 0⟩, ⟨0, 0⟩⟩ : ElementMove).toPosition.x ≤ e.bounds.x) ∧
    (∃ e ∈ Select.all [elemA, elemB],
      (⟨"a", ⟨0, 0⟩, ⟨0, 0⟩⟩ : ElementMove).toPosition.x = e.bounds.x) ∧
    (∀ move' ∈ (alignLeft Select.all acceptAllMove [elemA, elemB]).1,
      move'.toPosition.x = (⟨"a", ⟨0, 0⟩, ⟨0, 0⟩⟩ : ElementMove).toPosition.x) :=
  alignLeft_aligns_left_edges [elemA, elemB] Select.all acceptAllMove (by simp)
    (Or.inl rfl) (fun _ _ => rfl) ⟨"a", ⟨0, 0⟩, ⟨0, 0⟩⟩
    (by
      norm_num [alignLeft, dispatchAlignActions, createElementMove, toValidElementMove,
        acceptAllMove, reduce1Min, Select.all, elemA, elemB])

theorem layoutChild_height (bounds : Bounds)
    (childOptions containerOptions : VBoxLayoutOptionsExt) (currentOffset : Point)
    (maxWidth grabHeight : ℚ) (grabbingChildren : ℕ) :
    (layoutChild bounds childOptions containerOptions currentOffset maxWidth grabHeight
        grabbingChildren).1.height =
      bounds.height + (if grabAdjusted childOptions grabHeight grabbingChildren
        then grabHeight / (grabbingChildren : ℚ) else 0) := by
  unfold layoutChild superLayoutChild
  by_cases hga : grabAdjusted childOptions grabHeight grabbingChildren <;>
    by_cases hh : childOptions.hGrab <;>
      simp [hga, hh]

/-- C2 (amended): a child placed by layoutChild sits at the running offset on
the stacking axis; the returned offset advances by the child's (possibly
grab-adjusted) height plus the configured gap for ordinary children, but by
the grab-adjusted height alone — without the gap — when the vGrab adjustment
fires. -/
theorem vbox_layoutChild_offset_advance (bounds : Bounds)
    (childOptions containerOptions : VBoxLayoutOptionsExt) (currentOffset : Point)
    (maxWidth grabHeight : ℚ) (grabbingChildren : ℕ) :
    (layoutChild bounds childOptions containerOptions currentOffset maxWidth grabHeight
        grabbingChildren).1.y = currentOffset.y ∧
    (layoutChild bounds childOptions containerOptions currentOffset maxWidth grabHeight
        grabbingChildren).2.y =
      currentOffset.y +
        (layoutChild bounds childOptions containerOptions currentOffset maxWidth grabHeight
          grabbingChildren).1.height +
        (if grabAdjusted childOptions grabHeight grabbingChildren then 0
         else containerOptions.vGap) := by
  unfold layoutChild superLayoutChild
  by_cases hga : grabAdjusted childOptions grabHeight grabbingChildren <;>
    by_cases hh : childOptions.hGrab <;>
      simp [hga, hh]

/-- C2 counterexample: in a full layout pass over a vGrab child of height 1
followed by a plain child of height 1, with vGap = 1 and grab-adjusted height
8, the second child is placed at y = 8 rather than at 0 + 8 + 1 as the
original claim (offset always advances by height plus gap) would require. -/
theorem vbox_offset_gap_cex :
    (layout gapCexContainer baseOptions).map
        (fun r => r.2.map (fun p => (p.2.y, p.2.height))) = some [(0, 8), (8, 1)] ∧
    baseOptions.vGap = 1 ∧ ((8 : ℚ) ≠ 0 + 8 + 1) := by
  refine ⟨?_, rfl, by norm_num⟩
  norm_num [layout, gapCexContainer, baseOptions, getChildrenSize, getFixedContainerBounds,
    maxWidthOf, maxHeightOf, grabbingCount, layoutChildren, layoutChildrenAux, layoutChild,
    superLayoutChild, initialOffset, grabAdjusted, isValidDimension, EMPTY_BOUNDS,
    getFinalContainerBounds]

theorem layoutChildrenAux_extras (containerOptions : VBoxLayoutOptionsExt)
    (maxWidth grabHeight : ℚ) (grabbingChildren : ℕ) (children : List Child)
    (off : Point) :
    ((layoutChildrenAux containerOptions maxWidth grabHeight grabbingChildren children
          off).1).map (fun p => p.2.height - origHeight p.1) =
      (children.filter (fun c => qualifies c)).map
        (fun c => if grabAdjusted c.options grabHeight grabbingChildren
          then grabHeight / (grabbingChildren : ℚ) else 0) := by
  induction children generalizing off with
  | nil => rfl
  | cons c rest ih =>
    by_cases hl : c.layoutable
    · cases hb : c.bounds with
      | none =>
        have hq : qualifies c = false := by simp [qualifies, hl, hb]
        simp only [layoutChildrenAux, hl, hb, if_true, List.filter_cons, hq,
          Bool.false_eq_true, if_false]
        exact ih off
      | some b =>
        by_cases hv : isValidDimension b
        · have hq : qualifies c = true := by simp [qualifies, hl, hb, hv]
          simp only [layoutChildrenAux, hl, hb, hv, if_true, List.filter_cons, hq,
            List.map_cons]
          congr 1
          · rw [layoutChild_height]
            simp [origHeight, hb]
          · exact ih _
        · have hq : qualifies c = false := by simp [qualifies, hl, hb, hv]
          simp only [layoutChildrenAux, hl, hb, hv, if_true, Bool.false_eq_true, if_false,
            List.filter_cons, hq]
          exact ih off
    · have hq : qualifies c = false := by simp [qualifies, hl]
      simp only [layoutChildrenAux, hl, Bool.false_eq_true, if_false, List.filter_cons, hq]
      exact ih off

theorem sum_map_ite_count {A : Type} (l : List A) (p : A → Bool) (x : ℚ) :
    (l.map (fun a => if p a then x else 0)).sum = ((l.filter p).length : ℚ) * x := by
  induction l with
  | nil => simp
  | cons a rest ih =>
    by_cases hp : p a
    · simp only [List.map_cons, List.sum_cons, List.filter_cons, hp, if_true, ih,
        List.length_cons]
      push_cast
      ring
    · simp only [List.map_cons, List.sum_cons, List.filter_cons, hp, Bool.false_eq_true,
        if_false, ih]
      simp

theorem grabbingCount_eq_filter_length (children : List Child) :
    grabbingCount children = (children.filter (fun c => c.options.vGrab)).length := by
  unfold grabbingCount
  induction children with
  | nil => rfl
  | cons c rest ih =>
    by_cases h : c.options.vGrab <;>
      simp [List.filter_cons, h, ih]

/-- C1 (amended): in a committed VBox layout pass with grabbingCount > 0, and
provided every child that requests vGrab is a layoutable child with valid
bounds (the count on line 71 is taken over all children, while only placed
children receive extent, so the proviso is forced), the total extra vertical
extent granted to placed children equals the free space grabHeight =
maxHeight - childrenAggregateHeight; each placed grabbing child receives
grabHeight / grabbingCount. -/
theorem vbox_grab_sum_eq_free_space (container : Container)
    (options : VBoxLayoutOptionsExt) (finalBounds : Bounds)
    (placements : List (Child × Bounds))
    (hall : ∀ c ∈ container.children, c.options.vGrab = true → qualifies c = true)
    (hgc : 0 < grabbingCount container.children)
    (hrun : layout container options = some (finalBounds, placements)) :
    sumExtras placements = grabHeightOf container options := by
  simp only [layout] at hrun
  split at hrun
  · injection hrun with hpair
    injection hpair with hfb hpl
    subst hpl
    unfold sumExtras layoutChildren
    rw [layoutChildrenAux_extras, sum_map_ite_count]
    have hgcne : (grabbingCount container.children : ℚ) ≠ 0 := by
      exact_mod_cast Nat.pos_iff_ne_zero.mp hgc
    by_cases hgh : maxHeightOf options (getFixedContainerBounds container)
        (getChildrenSize container.children options) -
        (getChildrenSize container.children options).height = 0
    · rw [hgh]
      simp [grabHeightOf, hgh]
    · have hfilter : (container.children.filter (fun c => qualifies c)).filter
          (fun c => grabAdjusted c.options
            (maxHeightOf options (getFixedContainerBounds container)
                (getChildrenSize container.children options) -
              (getChildrenSize container.children options).height)
            (grabbingCount container.children)) =
          container.children.filter (fun c => c.options.vGrab) := by
        rw [List.filter_filter]
        apply List.filter_congr
        intro c hc
        by_cases hv : c.options.vGrab
        · have hq := hall c hc hv
          simp [hq, grabAdjusted, hv, hgh, Nat.pos_iff_ne_zero.mp hgc]
        · simp [grabAdjusted, hv]
      rw [hfilter, ← grabbingCount_eq_filter_length]
      rw [grabHeightOf]
      field_simp
  · cases hrun

/-- Concrete instantiation of the grab-sum theorem: a 10 x 10 fixed container
with two valid vGrab children of heights 1 and 2 and gap 1 has free space 6;
each child receives 3 extra and the extras sum to 6. -/
theorem vbox_grab_sum_eq_free_space_witness :
    sumExtras
        [(⟨true, some ⟨0, 0, 1, 1⟩, { baseOptions with vGrab := true }⟩, ⟨0, 0, 1, 4⟩),
         (⟨true, some ⟨0, 0, 2, 2⟩, { baseOptions with vGrab := true }⟩, ⟨0, 4, 2, 5⟩)] =
      grabHeightOf grabAllContainer baseOptions :=
  vbox_grab_sum_eq_free_space grabAllContainer baseOptions ⟨0, 0, 10, 10⟩
    [(⟨true, some ⟨0, 0, 1, 1⟩, { baseOptions with vGrab := true }⟩, ⟨0, 0, 1, 4⟩),
     (⟨true, some ⟨0, 0, 2, 2⟩, { baseOptions with vGrab := true }⟩, ⟨0, 4, 2, 5⟩)]
    (by
      intro c hc
      simp only [grabAllContainer, List.mem_cons, List.not_mem_nil, or_false] at hc
      rcases hc with rfl | rfl <;>
        · intro _
          norm_num [qualifies, isValidDimension])
    (by simp [grabbingCount, grabAllContainer, baseOptions])
    (by
      norm_num [layout, grabAllContainer, baseOptions, getChildrenSize,
        getFixedContainerBounds, maxWidthOf, maxHeightOf, grabbingCount, layoutChildren,
        layoutChildrenAux, layoutChild, superLayoutChild, initialOffset, grabAdjusted,
        isValidDimension, EMPTY_BOUNDS, getFinalContainerBounds])

/-- C1 counterexample: a committed pass whose two children both request vGrab
(grabbingCount = 2 > 0), but one of them is not layoutable; free space is 9,
yet only the valid child is placed and receives 9 / 2, so the granted extras
sum to 9 / 2, not to the free space. -/
theorem vbox_grab_sum_cex :
    0 < grabbingCount grabCexContainer.children ∧
    (layout grabCexContainer baseOptions).map (fun r => sumExtras r.2) = some (9 / 2) ∧
    grabHeightOf grabCexContainer baseOptions = 9 ∧ ((9 : ℚ) / 2 ≠ 9) := by
  refine ⟨by simp [grabbingCount, grabCexContainer, baseOptions], ?_, ?_, by norm_num⟩
  · norm_num [layout, grabCexContainer, baseOptions, getChildrenSize,
      getFixedContainerBounds, maxWidthOf, maxHeightOf, grabbingCount, layoutChildren,
      layoutChildrenAux, layoutChild, superLayoutChild, initialOffset, grabAdjusted,
      isValidDimension, EMPTY_BOUNDS, getFinalContainerBounds, sumExtras, origHeight]
  · norm_num [grabHeightOf, grabCexContainer, baseOptions, getChildrenSize,
      getFixedContainerBounds, maxHeightOf, isValidDimension]
